import Mathlib

/-! Biome provisioning helpers of `cmd/yb/helpers.go`.

A shallow embedding of the helper functions of the `yb` command line tool
(`generateNetrc`, `runCommand`, `injectNetrc`, `newBiome`, `targetToPhaseDeps`,
`narwhalContainerMap`, `newDockerNetwork`) together with the properties the
design document states about them.

Conventions of the embedding:

* a Go `string` is a Lean `String`; a `[]byte` is the list of its bytes, a
  `nil` slice being the empty list;
* a Go `error` is an `Option GoError`, `none` standing for `nil`;
* code with side effects threads an explicit `World` (process environment,
  files visible to the biome, log output, virtual networks);
* interfaces and packages that live outside `helpers.go` are records of
  functions or parameters of the embedded function.
-/

namespace Yb

/-! ## Strings, bytes, errors and formatting -/

/-- A Go byte slice; the `nil` slice is the empty list. -/
abbrev Bytes := List UInt8

/-- The bytes of a Go string (its UTF-8 encoding). -/
def bytesOf (s : String) : Bytes := s.toUTF8.data.toList

/-- A Go `error` value that is not `nil`.  `errorString` is an error carrying
only a message; `wrapError` is what `fmt.Errorf` builds for a format with a
`%w` verb: a message plus the wrapped error returned by `Unwrap`. -/
inductive GoError where
  | errorString (msg : String)
  | wrapError (msg : String) (err : GoError)
deriving DecidableEq, Repr

/-- The method `Error()` of an error. -/
def GoError.Error : GoError → String
  | .errorString msg => msg
  | .wrapError msg _ => msg

/-- The method `Unwrap()` of an error (`errors.Unwrap`). -/
def GoError.Unwrap : GoError → Option GoError
  | .errorString _ => none
  | .wrapError _ err => some err

/-- An operand of a formatting call: a string (or a `Stringer` such as a
`*strings.Builder`, given by its `String()`), or an error. -/
inductive Operand where
  | str (s : String)
  | err (e : GoError)
deriving DecidableEq, Repr

/-- What the verbs `%s`, `%v` and `%w` print for an operand. -/
def Operand.text : Operand → String
  | .str s => s
  | .err e => e.Error

/-- The error operand, if the operand is one. -/
def Operand.asError : Operand → Option GoError
  | .str _ => none
  | .err e => some e

/-- The formatting loop of package `fmt` for the verbs used in this file
(`%s`, `%v`, `%w`, and `%%`): the characters printed, and the operand of the
first `%w` verb when it is an error.  A verb without operand prints
`%!v(MISSING)` for its verb letter `v`, a lone trailing `%` prints
`%!(NOVERB)`. -/
def fmtScan : List Char → List Operand → List Char × Option GoError
  | [], _ => ([], none)
  | c :: rest, args =>
    if c = '%' then
      match rest, args with
      | [], _ => ("%!(NOVERB)".data, none)
      | v :: fs, [] =>
        if v = '%' then
          let r := fmtScan fs []
          ('%' :: r.1, r.2)
        else
          let r := fmtScan fs []
          ('%' :: '!' :: v :: "(MISSING)".data ++ r.1, r.2)
      | v :: fs, a :: as =>
        if v = '%' then
          let r := fmtScan fs (a :: as)
          ('%' :: r.1, r.2)
        else
          let r := fmtScan fs as
          (a.text.data ++ r.1, if v = 'w' then (a.asError <|> r.2) else r.2)
    else
      let r := fmtScan rest args
      (c :: r.1, r.2)

/-- `fmt.Sprintf` (and what `fmt.Fprintf` appends to its writer). -/
def Sprintf (format : String) (args : List Operand) : String :=
  String.mk (fmtScan format.data args).1

/-- `fmt.Errorf`: the formatted message, wrapping the operand of `%w`. -/
def Errorf (format : String) (args : List Operand) : GoError :=
  match (fmtScan format.data args).2 with
  | some e => .wrapError (Sprintf format args) e
  | none => .errorString (Sprintf format args)

/-! ## `generateNetrc` -/

/-- The function `generateNetrc` of `helpers.go`. -/
def generateNetrc (gitHubToken : String) : Bytes :=
  if gitHubToken = "" then
    []
  else
    bytesOf (Sprintf "machine github.com login x-access-token password %s\n" [.str gitHubToken])

/-! ## The world: process environment, files, networks, log output -/

/-- Severity of a line written through package `log`. -/
inductive LogLevel where
  | Debug
  | Info
  | Warn
deriving DecidableEq, Repr

/-- The state outside the program that the helpers read or change: the
environment variables of the process, the files visible to a biome (path and
content), the virtual networks known to the container runtime, and the lines
logged so far. -/
structure World where
  environ : List (String × String)
  files : List (String × Bytes)
  networks : List String
  logged : List (LogLevel × String)
deriving DecidableEq, Repr

/-- `os.Getenv`: the value of the variable, the empty string when unset. -/
def Getenv (w : World) (key : String) : String :=
  (w.environ.lookup key).getD ""

/-- The content of the file at a path, `none` when there is no such file. -/
def World.fileAt (w : World) (path : String) : Option Bytes :=
  w.files.lookup path

/-- The calls `log.Debugf`, `log.Infof` and `log.Warnf`: one more line. -/
def Logf (level : LogLevel) (format : String) (args : List Operand) (w : World) : World :=
  { w with logged := w.logged ++ [(level, Sprintf format args)] }

/-- A `context.Context`: the background context, or one handed in by the
caller, which may be canceled. -/
inductive Context where
  | Background
  | caller (canceled : Bool)
deriving DecidableEq, Repr

/-! ## Biomes -/

/-- The two output streams of a program. -/
inductive Stream where
  | stdout
  | stderr
deriving DecidableEq, Repr

/-- A `biome.Invocation` as far as `helpers.go` fills it in: the argument
vector and the writers attached to the two output streams, a writer being
named by a number (`none` for a `nil` writer). -/
structure Invocation where
  Argv : List String
  Stdout : Option Nat
  Stderr : Option Nat
deriving DecidableEq, Repr

/-- The writer an invocation attaches to a stream. -/
def Invocation.writerOf (inv : Invocation) : Stream → Option Nat
  | .stdout => inv.Stdout
  | .stderr => inv.Stderr

/-- What a run of a program did: the error of `Run`, the pieces the program
wrote to its streams in the order it wrote them, and the world it left. -/
structure RunResult where
  err : Option GoError
  written : List (Stream × String)
  world : World

/-- The text a writer has received after a run: the pieces written to the
streams it is attached to, in order. -/
def captured (inv : Invocation) (writer : Nat) (written : List (Stream × String)) : String :=
  String.join ((written.filter (fun piece => inv.writerOf piece.1 == some writer)).map (fun piece => piece.2))

/-- Some implementation of the interface `biome.BiomeCloser`, given by the
behaviour of its methods: `Dirs().Home`, `JoinPath`, `Run`, `Close`, and what
`biome.WriteFile` does with it. -/
structure Biome where
  Home : String
  JoinPath : List String → String
  Run : Context → Invocation → World → RunResult
  WriteFile : Context → String → Bytes → World → Option GoError × World
  Close : World → Option GoError × World

/-- A `biome.Environment` as far as `helpers.go` fills it in. -/
structure Environment where
  Vars : List (String × String)
deriving DecidableEq, Repr

/-- The values of type `biome.BiomeCloser` that `helpers.go` returns: a biome
it was given, the result of `biome.WithClose` (a biome and the function to
call on close), or a `biome.EnvBiome` literal with its fields `Biome` (which,
being an interface, may be `nil`) and `Env`. -/
inductive BiomeCloser where
  | impl (bio : Biome)
  | WithClose (bio : BiomeCloser) (closeFunc : World → Option GoError × World)
  | EnvBiome (Biome : Option BiomeCloser) (Env : Environment)

/-! ## `runCommand`, `injectNetrc` -/

/-- The function `runCommand` of `helpers.go`.  The builder `output` is writer
`0`, attached to both streams. -/
def runCommand (ctx : Context) (bio : Biome) (argv : List String) (w : World) :
    Option GoError × World :=
  let inv : Invocation := { Argv := argv, Stdout := some 0, Stderr := some 0 }
  let r := bio.Run ctx inv w
  let output := captured inv 0 r.written
  match r.err with
  | some err =>
    if (bytesOf output).length > 0 then
      (some (Errorf "%w\n%s" [.err err, .str output]), r.world)
    else
      (some err, r.world)
  | none => (none, r.world)

/-- The constant `netrcFilename`. -/
def netrcFilename : String := ".netrc"

/-- The constant `gitHubTokenVar` of `injectNetrc`. -/
def gitHubTokenVar : String := "YB_GH_TOKEN"

/-- The path `bio.JoinPath(bio.Dirs().Home, netrcFilename)`. -/
def netrcPathOf (bio : Biome) : String :=
  bio.JoinPath [bio.Home, netrcFilename]

/-- The invocation `runCommand` builds for an argument vector. -/
def commandInvocation (argv : List String) : Invocation :=
  { Argv := argv, Stdout := some 0, Stderr := some 0 }

/-- The function literal that `injectNetrc` hands to `biome.WithClose`.  In the
source it reads the variable `bio` after the assignment, that is the biome
returned by `WithClose`, whose `Run`, `JoinPath` and `Dirs` are those of the
biome it wraps. -/
def netrcCloseFunc (bio : Biome) (w : World) : Option GoError × World :=
  let ctx := Context.Background
  let r := runCommand ctx bio ["rm", bio.JoinPath [bio.Home, netrcFilename]] w
  match r.1 with
  | some err => (none, Logf .Warn "Could not clean up .netrc: %v" [.err err] r.2)
  | none => (none, r.2)

/-- The function `injectNetrc` of `helpers.go`: the pair it returns and the
world it leaves. -/
def injectNetrc (ctx : Context) (bio : Biome) (w : World) :
    (Option BiomeCloser × Option GoError) × World :=
  let token := Getenv w gitHubTokenVar
  if token = "" then
    ((some (.impl bio), none), w)
  else
    let w1 := Logf .Info "Writing .netrc" [] w
    let netrcPath := bio.JoinPath [bio.Home, netrcFilename]
    match bio.WriteFile ctx netrcPath (generateNetrc token) w1 with
    | (some err, w2) => ((none, some (Errorf "write netrc: %w" [.err err])), w2)
    | (none, w2) =>
      let r := runCommand ctx bio ["chmod", "600", netrcPath] w2
      let w3 :=
        match r.1 with
        | some err => Logf .Warn "Making temporary .netrc private: %v" [.err err] r.2
        | none => r.2
      let closing := BiomeCloser.WithClose (.impl bio) (netrcCloseFunc bio)
      ((some (.EnvBiome (some closing) { Vars := [(gitHubTokenVar, token)] }), none), w3)

/-! ## `newBiome` -/

/-- How a call ends: it returns, or the goroutine panics. -/
inductive Outcome (α : Type) where
  | returned (a : α)
  | panicked (reason : String)

/-- The run-time panic of reading a field through a `nil` pointer. -/
def nilDereference : String :=
  "runtime error: invalid memory address or nil pointer dereference"

/-- A `narwhal.ContainerDefinition`; `helpers.go` reads its field `Image`. -/
structure ContainerDefinition where
  Image : String
deriving DecidableEq, Repr

/-- A `ybdata.Dirs`, given by its method `BuildHome`. -/
structure Dirs where
  BuildHome : String → String → String → World → Except GoError String × World

/-- Arguments of `CreateNetwork`. -/
structure CreateNetworkOptions where
  Context : Context
  Name : String
  Driver : String
deriving DecidableEq, Repr

/-- A `docker.Network`; `helpers.go` reads its field `ID`. -/
structure Network where
  ID : String
deriving DecidableEq, Repr

/-- A `docker.Client`, given by the two methods `helpers.go` calls. -/
structure DockerClient where
  CreateNetwork : CreateNetworkOptions → World → Except GoError Network × World
  RemoveNetwork : String → World → Option GoError × World

/-- The file returned by `ybdata.Download`, given by its method `Close`. -/
structure TiniFile where
  Close : World → World

/-- A `biome.ContainerOptions` literal. -/
structure ContainerOptions where
  PackageDir : String
  HomeDir : String
  TiniExe : TiniFile
  Definition : Option ContainerDefinition
  NetworkID : String
  PullOutput : Stream

/-- The struct `newBiomeOptions`. -/
structure newBiomeOptions where
  packageDir : String
  target : String
  dataDirs : Dirs
  baseEnv : Environment
  dockerClient : Option DockerClient
  targetContainer : Option ContainerDefinition
  dockerNetworkID : String

/-- The method `disableDocker`. -/
def newBiomeOptions.disableDocker (opts : newBiomeOptions) : newBiomeOptions :=
  { opts with dockerClient := none, targetContainer := none, dockerNetworkID := "" }

/-- The functions and constants that `newBiome` uses and that are defined
outside `helpers.go`: `biome.Local{}.Describe()`, `biome.DockerDescriptor()`,
`biome.TiniURL`, `newContainerBiome`, `ybdata.Download` and
`biome.CreateContainer`. -/
structure Externals where
  LocalDescribe : String
  DockerDescriptor : String
  TiniURL : String
  newContainerBiome : Context → Dirs → String → String → String → World → Except GoError Biome × World
  Download : Context → Dirs → String → World → Except GoError TiniFile × World
  CreateContainer : Context → DockerClient → ContainerOptions → World → Except GoError Biome × World

/-- The error every failing step of `newBiome` returns. -/
def setUpError (target : String) (err : GoError) : GoError :=
  Errorf "set up environment for target %s: %w" [.str target, .err err]

/-- The function `newBiome` of `helpers.go`.  The deferred `tiniFile.Close()`
runs on every return after the download succeeded. -/
def newBiome (ext : Externals) (ctx : Context) (opts : newBiomeOptions) (w : World) :
    Outcome (Option BiomeCloser × Option GoError) × World :=
  match opts.dockerClient with
  | none =>
    match opts.dataDirs.BuildHome opts.packageDir opts.target ext.LocalDescribe w with
    | (.error err, w1) => (.returned (none, some (setUpError opts.target err)), w1)
    | (.ok homeDir, w1) =>
      let w2 := Logf .Debug "Home located at %s" [.str homeDir] w1
      match opts.targetContainer with
      | none => (.panicked nilDereference, w2)
      | some definition =>
        match ext.newContainerBiome ctx opts.dataDirs opts.packageDir homeDir definition.Image w2 with
        | (.error err, w3) => (.returned (none, some (setUpError opts.target err)), w3)
        | (.ok cb, w3) =>
          match injectNetrc ctx cb w3 with
          | ((_, some err), w4) => (.returned (none, some (setUpError opts.target err)), w4)
          | ((bio, none), w4) => (.returned (some (.EnvBiome bio opts.baseEnv), none), w4)
  | some client =>
    match opts.dataDirs.BuildHome opts.packageDir opts.target ext.DockerDescriptor w with
    | (.error err, w1) => (.returned (none, some (setUpError opts.target err)), w1)
    | (.ok home, w1) =>
      let w2 := Logf .Debug "Home located at %s" [.str home] w1
      match ext.Download ctx opts.dataDirs ext.TiniURL w2 with
      | (.error err, w3) => (.returned (none, some (setUpError opts.target err)), w3)
      | (.ok tiniFile, w3) =>
        let containerOptions : ContainerOptions :=
          { PackageDir := opts.packageDir, HomeDir := home, TiniExe := tiniFile,
            Definition := opts.targetContainer, NetworkID := opts.dockerNetworkID,
            PullOutput := .stderr }
        match ext.CreateContainer ctx client containerOptions w3 with
        | (.error err, w4) =>
          (.returned (none, some (setUpError opts.target err)), tiniFile.Close w4)
        | (.ok c, w4) =>
          match injectNetrc ctx c w4 with
          | ((_, some err), w5) =>
            (.returned (none, some (setUpError opts.target err)), tiniFile.Close w5)
          | ((bio, none), w5) =>
            (.returned (some (.EnvBiome bio opts.baseEnv), none), tiniFile.Close w5)

/-! ## `targetToPhaseDeps`, `narwhalContainerMap`, `targetToPhase` -/

/-- A Go `map[string]V`: `none` is the `nil` map, `some m` a map that was
made, with the entries `m` (no key twice).  The order of the entries stands
for the order in which a `range` loop visits them. -/
abbrev GoMap (V : Type) := Option (AList (fun _ : String => V))

/-- The builtin `len` of a map. -/
def GoMap.len {V : Type} : GoMap V → Nat
  | none => 0
  | some m => m.entries.length

/-- The entries a `range` loop over the map visits. -/
def GoMap.range {V : Type} : GoMap V → List (Sigma (fun _ : String => V))
  | none => []
  | some m => m.entries

/-- The function `narwhalContainerMap` of `helpers.go`, for the method
`ToNarwhal` of `yb.ContainerDefinition` given as a function. -/
def narwhalContainerMap {CD NCD : Type} (ToNarwhal : CD → NCD) (defs : GoMap CD) : GoMap NCD :=
  if GoMap.len defs = 0 then
    none
  else
    some ((GoMap.range defs).foldl (fun nmap kv => nmap.insert kv.1 (ToNarwhal kv.2)) ∅)

/-- A `yb.BuildTarget` as far as `helpers.go` reads it; `Build` and
`Containers` are the fields of `Dependencies`. -/
structure BuildTarget (CD EnvDecl : Type) where
  Name : String
  Build : List String
  Containers : GoMap CD
  Environment : EnvDecl
  Commands : List String
  Root : String

/-- A `build.PhaseDeps`. -/
structure PhaseDeps (Spec NCD Template : Type) where
  TargetName : String
  Buildpacks : List Spec
  Resources : GoMap NCD
  EnvironmentTemplate : Option Template

/-- A `build.Phase`. -/
structure Phase where
  TargetName : String
  Commands : List String
  Root : String
deriving DecidableEq, Repr

/-- The loop over `target.Dependencies.Build` in `targetToPhaseDeps`: the
dependencies still to visit and `phaseDeps.Buildpacks` so far. -/
def parseBuildpacks {Spec : Type} (ParseBuildpackSpec : String → Except GoError Spec)
    (targetName : String) : List String → List Spec → Except GoError (List Spec)
  | [], buildpacks => .ok buildpacks
  | dep :: rest, buildpacks =>
    match ParseBuildpackSpec dep with
    | .error err => .error (Errorf "target %s: %w" [.str targetName, .err err])
    | .ok spec => parseBuildpacks ParseBuildpackSpec targetName rest (buildpacks ++ [spec])

/-- The function `targetToPhaseDeps` of `helpers.go`, for `yb.ParseBuildpackSpec`,
`biome.MapVars` and `ToNarwhal` given as functions. -/
def targetToPhaseDeps {CD NCD EnvDecl Spec Template : Type}
    (ToNarwhal : CD → NCD)
    (ParseBuildpackSpec : String → Except GoError Spec)
    (MapVars : EnvDecl → Except GoError Template)
    (target : BuildTarget CD EnvDecl) :
    Option (PhaseDeps Spec NCD Template) × Option GoError :=
  let phaseDeps : PhaseDeps Spec NCD Template :=
    { TargetName := target.Name,
      Buildpacks := [],
      Resources := narwhalContainerMap ToNarwhal target.Containers,
      EnvironmentTemplate := none }
  match parseBuildpacks ParseBuildpackSpec target.Name target.Build phaseDeps.Buildpacks with
  | .error err => (none, some err)
  | .ok buildpacks =>
    match MapVars target.Environment with
    | .error err => (none, some (Errorf "target %s: %w" [.str target.Name, .err err]))
    | .ok template =>
      (some { phaseDeps with Buildpacks := buildpacks, EnvironmentTemplate := some template }, none)

/-- The function `targetToPhase` of `helpers.go`. -/
def targetToPhase {CD EnvDecl : Type} (target : BuildTarget CD EnvDecl) : Phase :=
  { TargetName := target.Name, Commands := target.Commands, Root := target.Root }

/-! ## `newDockerNetwork` -/

/-- One hexadecimal digit, lower case. -/
def hexDigit (n : Nat) : Char :=
  "0123456789abcdef".data.getD n '0'

/-- `hex.EncodeToString`. -/
def hexEncodeToString (bits : Bytes) : String :=
  String.mk (bits.flatMap (fun b => [hexDigit (b.toNat / 16), hexDigit (b.toNat % 16)]))

/-- The function `newDockerNetwork` of `helpers.go`, for `rand.Read` given as a
function of the number of bytes asked for.  It returns the identifier, the
teardown function (`none` for `nil`) and the error. -/
def newDockerNetwork (randRead : Nat → World → Except GoError Bytes × World)
    (ctx : Context) (client : Option DockerClient) (w : World) :
    (String × Option (World → World) × Option GoError) × World :=
  match client with
  | none => (("", some (fun w0 => w0), none), w)
  | some client =>
    match randRead 8 w with
    | (.error err, w1) =>
      (("", none, some (Errorf "create docker network: generate name: %w" [.err err])), w1)
    | (.ok bits, w1) =>
      let name := hexEncodeToString bits
      let w2 := Logf .Info "Creating Docker network %s..." [.str name] w1
      match client.CreateNetwork { Context := ctx, Name := name, Driver := "bridge" } w2 with
      | (.error err, w3) =>
        (("", none, some (Errorf "create docker network: %w" [.err err])), w3)
      | (.ok network, w3) =>
        let id := network.ID
        ((id, some (fun w0 =>
            let w4 := Logf .Info "Removing Docker network %s..." [.str name] w0
            match client.RemoveNetwork id w4 with
            | (some err, w5) =>
              Logf .Warn "Unable to remove Docker network %s (%s): %v" [.str name, .str id, .err err] w5
            | (none, w5) => w5), none), w3)

/-! ## Concrete biomes and worlds to run the definitions on -/

/-- The registered close function of a biome returned by `injectNetrc`, when
it has the shape `EnvBiome` around `WithClose`. -/
def registeredClose : Option BiomeCloser → Option (World → Option GoError × World)
  | some (.EnvBiome (some (.WithClose _ closeFunc)) _) => some closeFunc
  | _ => none

/-- The overlay of a returned biome, when it is an `EnvBiome`. -/
def overlayOf : Option BiomeCloser → Option Environment
  | some (.EnvBiome _ env) => some env
  | _ => none

/-- A run that fails with exit status 1 after writing a line to stderr. -/
def failedRun (line : String) (w : World) : RunResult :=
  { err := some (.errorString "exit status 1"), written := [(.stderr, line)], world := w }

/-- A biome kept in memory.  Its files are those of the world; `canWrite`
says whether files may be written, `canChmod` and `canRemove` whether the
commands `chmod` and `rm` are allowed to do their work; any other command is
missing. -/
def memBiome (home : String) (canWrite canChmod canRemove : Bool) : Biome where
  Home := home
  JoinPath := fun elem => String.intercalate "/" elem
  Run := fun _ inv w =>
    match inv.Argv with
    | ["chmod", _, path] =>
      match w.fileAt path with
      | none => failedRun ("chmod: cannot access " ++ path ++ ": No such file or directory\n") w
      | some _ =>
        if canChmod then
          { err := none, written := [], world := w }
        else
          failedRun ("chmod: changing permissions of " ++ path ++ ": Operation not permitted\n") w
    | ["rm", path] =>
      match w.fileAt path with
      | none => failedRun ("rm: cannot remove " ++ path ++ ": No such file or directory\n") w
      | some _ =>
        if canRemove then
          { err := none, written := [],
            world := { w with files := w.files.filter (fun f => f.1 != path) } }
        else
          failedRun ("rm: cannot remove " ++ path ++ ": Operation not permitted\n") w
    | _ => { err := some (.errorString "executable file not found in $PATH"), written := [], world := w }
  WriteFile := fun _ path data w =>
    if canWrite then
      (none, { w with files := (path, data) :: w.files.filter (fun f => f.1 != path) })
    else
      (some (.errorString "read-only file system"), w)
  Close := fun w => (none, w)

/-- A world with nothing in it but the given environment variables. -/
def worldWithEnv (environ : List (String × String)) : World :=
  { environ := environ, files := [], networks := [], logged := [] }

/-- A world in which the token `abc123` is set. -/
def tokenWorld : World := worldWithEnv [("YB_GH_TOKEN", "abc123")]

/-- A data directory manager that puts every home under `/data`. -/
def sampleDirs : Dirs where
  BuildHome := fun _ target desc w => (.ok ("/data/" ++ target ++ "/" ++ desc), w)

/-- Collaborators for runs of `newBiome`: every step succeeds and the biomes
built are in-memory biomes on the home they are given. -/
def sampleExternals : Externals where
  LocalDescribe := "local"
  DockerDescriptor := "docker"
  TiniURL := "https://example.com/tini"
  newContainerBiome := fun _ _ _ homeDir _ w => (.ok (memBiome homeDir true true true), w)
  Download := fun _ _ _ w => (.ok { Close := fun w0 => w0 }, w)
  CreateContainer := fun _ _ options w => (.ok (memBiome options.HomeDir true true true), w)

/-- Options for the target `web` in container mode, before `disableDocker`. -/
def webOptions : newBiomeOptions where
  packageDir := "/pkg"
  target := "web"
  dataDirs := sampleDirs
  baseEnv := { Vars := [("CI", "1")] }
  dockerClient := some
    { CreateNetwork := fun options w => (.ok { ID := options.Name }, w),
      RemoveNetwork := fun _ w => (none, w) }
  targetContainer := some { Image := "yourbase/yb_ubuntu:18.04" }
  dockerNetworkID := "net0"

/-- A parser of `name:version` dependency strings, to run the translation
on: a string without a colon does not parse. -/
def sampleParse (dep : String) : Except GoError (String × String) :=
  match dep.data.span (fun c => c != ':') with
  | (name, ':' :: version) => .ok (String.mk name, String.mk version)
  | _ => .error (.errorString ("malformed build pack definition: " ++ dep))

/-- An environment resolver to run the translation on: it fails on an empty
variable name. -/
def sampleMapVars (decls : List (String × String)) : Except GoError (List (String × String)) :=
  if decls.any (fun d => d.1 == "") then
    .error (.errorString "empty variable name")
  else
    .ok decls

/-- A build target with one dependency string. -/
def sampleTarget (dep : String) : BuildTarget String (List (String × String)) where
  Name := "web"
  Build := ["go:1.14", dep]
  Containers := none
  Environment := [("GOFLAGS", "-mod=vendor")]
  Commands := ["go build"]
  Root := "."

/-- Two container resources, `db` and `cache`, given by their images. -/
def sampleResources : AList (fun _ : String => String) :=
  (AList.singleton "db" "postgres:12").insert "cache" "redis:6"

/-! ## Formatting lemmas -/

theorem bytesOf_mk (cs : List Char) : bytesOf (String.mk cs) = cs.flatMap String.utf8EncodeChar := rfl

theorem bytesOf_append (a b : String) : bytesOf (a ++ b) = bytesOf a ++ bytesOf b := by
  show (a ++ b).data.flatMap String.utf8EncodeChar = a.data.flatMap String.utf8EncodeChar ++ b.data.flatMap String.utf8EncodeChar
  simp [String.data_append, List.flatMap_append]

theorem Sprintf_netrc (t : String) :
    Sprintf "machine github.com login x-access-token password %s\n" [.str t]
      = "machine github.com login x-access-token password " ++ t ++ "\n" := by
  apply String.ext
  simp [Sprintf, fmtScan, Operand.text, String.data_append]

theorem generateNetrc_of_ne (t : String) (h : t ≠ "") :
    generateNetrc t
      = bytesOf "machine github.com login x-access-token password " ++ bytesOf t ++ [10] := by
  simp only [generateNetrc, if_neg h, Sprintf_netrc, bytesOf_append]
  rfl

theorem utf8EncodeChar_ne_nil (c : Char) : String.utf8EncodeChar c ≠ [] := by
  unfold String.utf8EncodeChar
  simp only []
  split_ifs <;> simp

theorem bytesOf_eq_nil_iff (s : String) : bytesOf s = [] ↔ s = "" := by
  constructor
  · intro h
    have hd : s.data = [] := by
      cases hs : s.data with
      | nil => rfl
      | cons c cs =>
        have h2 : s.data.flatMap String.utf8EncodeChar = [] := h
        rw [hs, List.flatMap_cons] at h2
        exact absurd (List.append_eq_nil.mp h2).1 (utf8EncodeChar_ne_nil c)
    exact String.ext hd
  · intro h
    subst h
    rfl

theorem bytesOf_length_pos_iff (s : String) : (bytesOf s).length > 0 ↔ s ≠ "" := by
  rw [gt_iff_lt, List.length_pos, Ne, Ne, bytesOf_eq_nil_iff]

theorem captured_both (argv : List String) (written : List (Stream × String)) :
    captured { Argv := argv, Stdout := some 0, Stderr := some 0 } 0 written
      = String.join (written.map (fun piece => piece.2)) := by
  have hall : written.filter
      (fun piece => Invocation.writerOf { Argv := argv, Stdout := some 0, Stderr := some 0 } piece.1
        == some 0) = written := by
    apply List.filter_eq_self.mpr
    intro piece _
    cases hp : piece.1 <;> simp [Invocation.writerOf]
  unfold captured
  rw [hall]

theorem Errorf_run_output (e : GoError) (output : String) :
    Errorf "%w\n%s" [.err e, .str output] = .wrapError (e.Error ++ "\n" ++ output) e := by
  have h1 : Sprintf "%w\n%s" [.err e, .str output] = e.Error ++ "\n" ++ output := by
    apply String.ext
    simp [Sprintf, fmtScan, Operand.text, String.data_append]
  have h2 : (fmtScan "%w\n%s".data [.err e, .str output]).2 = some e := by
    simp [fmtScan, Operand.asError]
  simp only [Errorf, h2, h1]

theorem Errorf_write_netrc (e : GoError) :
    Errorf "write netrc: %w" [.err e] = .wrapError ("write netrc: " ++ e.Error) e := by
  have h1 : Sprintf "write netrc: %w" [.err e] = "write netrc: " ++ e.Error := by
    apply String.ext
    simp [Sprintf, fmtScan, Operand.text, String.data_append]
  have h2 : (fmtScan "write netrc: %w".data [.err e]).2 = some e := by
    simp [fmtScan, Operand.asError]
  simp only [Errorf, h2, h1]

theorem Errorf_target (name : String) (e : GoError) :
    Errorf "target %s: %w" [.str name, .err e]
      = .wrapError ("target " ++ name ++ ": " ++ e.Error) e := by
  have h1 : Sprintf "target %s: %w" [.str name, .err e] = "target " ++ name ++ ": " ++ e.Error := by
    apply String.ext
    simp [Sprintf, fmtScan, Operand.text, String.data_append]
  have h2 : (fmtScan "target %s: %w".data [.str name, .err e]).2 = some e := by
    simp [fmtScan, Operand.asError]
  simp only [Errorf, h2, h1]

theorem setUpError_eq (target : String) (e : GoError) :
    setUpError target e
      = .wrapError ("set up environment for target " ++ target ++ ": " ++ e.Error) e := by
  have h1 : Sprintf "set up environment for target %s: %w" [.str target, .err e]
      = "set up environment for target " ++ target ++ ": " ++ e.Error := by
    apply String.ext
    simp [Sprintf, fmtScan, Operand.text, String.data_append]
  have h2 : (fmtScan "set up environment for target %s: %w".data [.str target, .err e]).2
      = some e := by
    simp [fmtScan, Operand.asError]
  simp only [setUpError, Errorf, h2, h1]

@[simp] theorem fileAt_Logf (level : LogLevel) (format : String) (args : List Operand) (w : World) :
    (Logf level format args w).fileAt = w.fileAt := rfl

theorem runCommand_world (ctx : Context) (bio : Biome) (argv : List String) (w : World) :
    (runCommand ctx bio argv w).2 = (bio.Run ctx (commandInvocation argv) w).world := by
  unfold runCommand commandInvocation
  simp only []
  split
  · split <;> rfl
  · rfl

theorem runCommand_none_iff (ctx : Context) (bio : Biome) (argv : List String) (w : World) :
    (runCommand ctx bio argv w).1 = none ↔ (bio.Run ctx (commandInvocation argv) w).err = none := by
  unfold runCommand commandInvocation
  simp only []
  split
  · rename_i err herr
    split <;> simp [herr]
  · rename_i herr
    simp [herr]

/-! ## `generateNetrc` -/

/-- C1: for a non-empty token `t`, `generateNetrc t` is exactly the bytes of
`machine github.com login x-access-token password `, then the bytes of `t`,
then one newline (byte 10); for `abc123` it is the bytes of the line
`machine github.com login x-access-token password abc123`; for the empty
token it is the empty slice. -/
theorem generateNetrc_record (t : String) (h : t ≠ "") :
    generateNetrc t
        = bytesOf "machine github.com login x-access-token password " ++ bytesOf t ++ [10]
      ∧ generateNetrc "abc123"
        = bytesOf "machine github.com login x-access-token password abc123\n"
      ∧ generateNetrc "" = [] :=
  ⟨generateNetrc_of_ne t h, by decide, by decide⟩

/-- C1, on a run: the token `s3cret`. -/
theorem generateNetrc_record_witness :
    generateNetrc "s3cret"
      = bytesOf "machine github.com login x-access-token password " ++ bytesOf "s3cret" ++ [10] :=
  (generateNetrc_record "s3cret" (by decide)).1

/-! ## `runCommand` -/

/-- C10: `runCommand` runs the argument vector with both streams attached to
one builder, leaves the world the run left, and returns no error exactly when
the run returns none; a failed run with output gives an error wrapping the
run's error whose message is that error's message, a newline and the combined
output; a failed run without output gives the run's error itself. -/
theorem runCommand_combined_output (ctx : Context) (bio : Biome) (argv : List String) (w : World) :
    (runCommand ctx bio argv w).2
        = (bio.Run ctx { Argv := argv, Stdout := some 0, Stderr := some 0 } w).world
      ∧ ((runCommand ctx bio argv w).1 = none
          ↔ (bio.Run ctx { Argv := argv, Stdout := some 0, Stderr := some 0 } w).err = none)
      ∧ (∀ e : GoError,
          (bio.Run ctx { Argv := argv, Stdout := some 0, Stderr := some 0 } w).err = some e →
          String.join ((bio.Run ctx { Argv := argv, Stdout := some 0, Stderr := some 0 } w).written.map
            (fun piece => piece.2)) ≠ "" →
          (runCommand ctx bio argv w).1
            = some (.wrapError (e.Error ++ "\n" ++
                String.join ((bio.Run ctx { Argv := argv, Stdout := some 0, Stderr := some 0 } w).written.map
                  (fun piece => piece.2))) e)
            ∧ ((GoError.wrapError (e.Error ++ "\n" ++
                String.join ((bio.Run ctx { Argv := argv, Stdout := some 0, Stderr := some 0 } w).written.map
                  (fun piece => piece.2))) e).Unwrap = some e))
      ∧ (∀ e : GoError,
          (bio.Run ctx { Argv := argv, Stdout := some 0, Stderr := some 0 } w).err = some e →
          String.join ((bio.Run ctx { Argv := argv, Stdout := some 0, Stderr := some 0 } w).written.map
            (fun piece => piece.2)) = "" →
          (runCommand ctx bio argv w).1 = some e) := by
  refine ⟨?_, ?_, ?_, ?_⟩
  · unfold runCommand
    simp only []
    split
    · split <;> rfl
    · rfl
  · unfold runCommand
    simp only []
    split
    · rename_i err herr
      split <;> simp [herr]
    · rename_i herr
      simp [herr]
  · intro e he hout
    refine ⟨?_, rfl⟩
    unfold runCommand
    simp only [he, captured_both]
    rw [if_pos ((bytesOf_length_pos_iff _).mpr hout), Errorf_run_output]
  · intro e he hout
    unfold runCommand
    simp only [he, captured_both]
    rw [if_neg (by rw [bytesOf_length_pos_iff]; simpa using hout)]

/-- C10, on a run: `rm` of a missing file in the in-memory biome fails with
one line on stderr, and `runCommand` returns the wrapping error with that
line appended. -/
theorem runCommand_combined_output_witness :
    (runCommand .Background (memBiome "/home/yb" true true true) ["rm", "/home/yb/.netrc"] tokenWorld).1
      = some (.wrapError
          ("exit status 1" ++ "\n" ++
            "rm: cannot remove /home/yb/.netrc: No such file or directory\n")
          (.errorString "exit status 1")) :=
  ((runCommand_combined_output .Background (memBiome "/home/yb" true true true)
      ["rm", "/home/yb/.netrc"] tokenWorld).2.2.1 (.errorString "exit status 1") rfl (by decide)).1

/-! ## `injectNetrc` -/

theorem injectNetrc_write_failed (ctx : Context) (bio : Biome) (w : World) (cause : GoError)
    (hne : Getenv w gitHubTokenVar ≠ "")
    (hwrite : (bio.WriteFile ctx (netrcPathOf bio) (generateNetrc (Getenv w gitHubTokenVar))
        (Logf .Info "Writing .netrc" [] w)).1 = some cause) :
    (injectNetrc ctx bio w).1 = (none, some (.wrapError ("write netrc: " ++ cause.Error) cause)) := by
  unfold injectNetrc
  simp only [if_neg hne]
  rcases h : bio.WriteFile ctx (bio.JoinPath [bio.Home, netrcFilename])
      (generateNetrc (Getenv w gitHubTokenVar)) (Logf .Info "Writing .netrc" [] w) with ⟨e, w2⟩
  have he : e = some cause := by
    have := hwrite
    simp only [netrcPathOf, h] at this
    exact this
  subst he
  simp only [Errorf_write_netrc]

theorem injectNetrc_write_ok (ctx : Context) (bio : Biome) (w : World)
    (hne : Getenv w gitHubTokenVar ≠ "")
    (hwrite : (bio.WriteFile ctx (netrcPathOf bio) (generateNetrc (Getenv w gitHubTokenVar))
        (Logf .Info "Writing .netrc" [] w)).1 = none) :
    (injectNetrc ctx bio w).1
        = (some (.EnvBiome (some (.WithClose (.impl bio) (netrcCloseFunc bio)))
            { Vars := [(gitHubTokenVar, Getenv w gitHubTokenVar)] }), none)
      ∧ (injectNetrc ctx bio w).2.fileAt
        = (bio.Run ctx (commandInvocation ["chmod", "600", netrcPathOf bio])
            (bio.WriteFile ctx (netrcPathOf bio) (generateNetrc (Getenv w gitHubTokenVar))
              (Logf .Info "Writing .netrc" [] w)).2).world.fileAt := by
  unfold injectNetrc
  simp only [if_neg hne]
  rcases h : bio.WriteFile ctx (bio.JoinPath [bio.Home, netrcFilename])
      (generateNetrc (Getenv w gitHubTokenVar)) (Logf .Info "Writing .netrc" [] w) with ⟨e, w2⟩
  have he : e = none := by
    have := hwrite
    simp only [netrcPathOf, h] at this
    exact this
  subst he
  refine ⟨rfl, ?_⟩
  simp only [netrcPathOf, h, commandInvocation]
  have hworld := runCommand_world ctx bio
    ["chmod", "600", bio.JoinPath [bio.Home, netrcFilename]] w2
  simp only [commandInvocation] at hworld
  split
  · rw [fileAt_Logf, hworld]
  · rw [hworld]

/-- C3: with an empty token `injectNetrc` returns the biome it was given and
no error, and leaves the world as it found it: no file is written, no command
is run, nothing is logged. -/
theorem injectNetrc_empty_token (ctx : Context) (bio : Biome) (w : World)
    (h : Getenv w gitHubTokenVar = "") :
    injectNetrc ctx bio w = ((some (.impl bio), none), w) := by
  unfold injectNetrc
  simp only [if_pos h]

/-- C3, on a run: no token in the environment, the in-memory biome comes back
and the world is untouched. -/
theorem injectNetrc_empty_token_witness :
    injectNetrc (.caller false) (memBiome "/home/yb" true true true) (worldWithEnv [])
      = ((some (.impl (memBiome "/home/yb" true true true)), none), worldWithEnv []) :=
  injectNetrc_empty_token (.caller false) (memBiome "/home/yb" true true true) (worldWithEnv [])
    (by decide)

/-- C4: for a non-empty token `t`, when the write of the credential file
succeeds, then in a biome whose successful writes store the data and whose
`chmod` leaves the content of the file alone, `injectNetrc` leaves at
`JoinPath(Home, ".netrc")` a file with content `generateNetrc t`, that is
the one record followed by a newline, and returns no error and an `EnvBiome`
whose overlay has the single variable `YB_GH_TOKEN` with value `t`. -/
theorem injectNetrc_leaves_netrc (ctx : Context) (bio : Biome) (w : World) (t : String)
    (ht : Getenv w gitHubTokenVar = t) (hne : t ≠ "")
    (hwrite : (bio.WriteFile ctx (bio.JoinPath [bio.Home, ".netrc"]) (generateNetrc t)
        (Logf .Info "Writing .netrc" [] w)).1 = none)
    (hstore : ∀ (c : Context) (path : String) (data : Bytes) (w0 : World),
        (bio.WriteFile c path data w0).1 = none →
        (bio.WriteFile c path data w0).2.fileAt path = some data)
    (hchmod : ∀ (c : Context) (path : String) (w0 : World),
        (bio.Run c (commandInvocation ["chmod", "600", path]) w0).world.fileAt path
          = w0.fileAt path) :
    (injectNetrc ctx bio w).2.fileAt (bio.JoinPath [bio.Home, ".netrc"]) = some (generateNetrc t)
      ∧ generateNetrc t
          = bytesOf "machine github.com login x-access-token password " ++ bytesOf t ++ [10]
      ∧ (injectNetrc ctx bio w).1.2 = none
      ∧ (injectNetrc ctx bio w).1.1
          = some (.EnvBiome (some (.WithClose (.impl bio) (netrcCloseFunc bio)))
              { Vars := [("YB_GH_TOKEN", t)] }) := by
  subst ht
  have hok := injectNetrc_write_ok ctx bio w hne hwrite
  refine ⟨?_, generateNetrc_of_ne _ hne, ?_, ?_⟩
  · rw [hok.2]
    show (bio.Run ctx (commandInvocation ["chmod", "600", netrcPathOf bio]) _).world.fileAt
      (netrcPathOf bio) = _
    rw [hchmod]
    exact hstore _ _ _ _ hwrite
  · rw [hok.1]
  · rw [hok.1]
    rfl

/-- C4, on a run: token `abc123`, the in-memory biome with home `/home/yb`. -/
theorem injectNetrc_leaves_netrc_witness :
    (injectNetrc (.caller false) (memBiome "/home/yb" true true true) tokenWorld).2.fileAt
        "/home/yb/.netrc"
      = some (bytesOf "machine github.com login x-access-token password abc123\n")
    ∧ overlayOf (injectNetrc (.caller false) (memBiome "/home/yb" true true true) tokenWorld).1.1
      = some { Vars := [("YB_GH_TOKEN", "abc123")] } := by
  have h := injectNetrc_leaves_netrc (.caller false) (memBiome "/home/yb" true true true)
    tokenWorld "abc123" (by decide) (by decide) (by decide)
    (by
      intro c path data w0 _
      simp [memBiome, World.fileAt, List.lookup])
    (by
      intro c path w0
      simp only [memBiome, commandInvocation]
      cases hf : w0.fileAt path <;> simp [failedRun, hf])
  refine ⟨?_, ?_⟩
  · have h1 := h.1
    have h2 : (memBiome "/home/yb" true true true).JoinPath
        [(memBiome "/home/yb" true true true).Home, ".netrc"] = "/home/yb/.netrc" := by decide
    rw [h2] at h1
    rw [h1]
    decide
  · rw [h.2.2.2]
    rfl

/-- C6: for a non-empty token, whatever the `chmod` run inside the biome
does, a successful write makes `injectNetrc` return a biome and no error; a
failed write makes it return no biome and the error `write netrc: ` followed
by the cause, which it wraps; and any error it returns comes from a failed
write and comes without a biome. -/
theorem injectNetrc_chmod_best_effort (ctx : Context) (bio : Biome) (w : World)
    (hne : Getenv w gitHubTokenVar ≠ "") :
    ((bio.WriteFile ctx (netrcPathOf bio) (generateNetrc (Getenv w gitHubTokenVar))
          (Logf .Info "Writing .netrc" [] w)).1 = none →
        (injectNetrc ctx bio w).1.2 = none ∧ ∃ b, (injectNetrc ctx bio w).1.1 = some b)
      ∧ (∀ cause : GoError,
          (bio.WriteFile ctx (netrcPathOf bio) (generateNetrc (Getenv w gitHubTokenVar))
            (Logf .Info "Writing .netrc" [] w)).1 = some cause →
          (injectNetrc ctx bio w).1
            = (none, some (.wrapError ("write netrc: " ++ cause.Error) cause)))
      ∧ (∀ e : GoError, (injectNetrc ctx bio w).1.2 = some e →
          (injectNetrc ctx bio w).1.1 = none
            ∧ ∃ cause : GoError,
              (bio.WriteFile ctx (netrcPathOf bio) (generateNetrc (Getenv w gitHubTokenVar))
                (Logf .Info "Writing .netrc" [] w)).1 = some cause
              ∧ e = .wrapError ("write netrc: " ++ cause.Error) cause) := by
  refine ⟨?_, ?_, ?_⟩
  · intro hwrite
    have hok := (injectNetrc_write_ok ctx bio w hne hwrite).1
    rw [hok]
    exact ⟨rfl, _, rfl⟩
  · intro cause hwrite
    exact injectNetrc_write_failed ctx bio w cause hne hwrite
  · intro e he
    cases hwrite : (bio.WriteFile ctx (netrcPathOf bio) (generateNetrc (Getenv w gitHubTokenVar))
        (Logf .Info "Writing .netrc" [] w)).1 with
    | none =>
      have hok := (injectNetrc_write_ok ctx bio w hne hwrite).1
      rw [hok] at he
      exact absurd he (by simp)
    | some cause =>
      have hfail := injectNetrc_write_failed ctx bio w cause hne hwrite
      rw [hfail] at he ⊢
      refine ⟨rfl, cause, rfl, ?_⟩
      simpa using he.symm

/-- C6, on a run: in a biome where `chmod` is refused, the write succeeds, the
`chmod` run fails, and `injectNetrc` still returns a biome and no error. -/
theorem injectNetrc_chmod_best_effort_witness :
    (runCommand (.caller false) (memBiome "/home/yb" true false true)
        ["chmod", "600", "/home/yb/.netrc"]
        ((memBiome "/home/yb" true false true).WriteFile (.caller false) "/home/yb/.netrc"
          (generateNetrc "abc123") (Logf .Info "Writing .netrc" [] tokenWorld)).2).1 ≠ none
    ∧ (injectNetrc (.caller false) (memBiome "/home/yb" true false true) tokenWorld).1.2 = none
    ∧ ∃ b, (injectNetrc (.caller false) (memBiome "/home/yb" true false true) tokenWorld).1.1
        = some b :=
  ⟨by decide,
    (injectNetrc_chmod_best_effort (.caller false) (memBiome "/home/yb" true false true) tokenWorld
      (by decide)).1 (by decide)⟩

/-! ## The teardown registered by `injectNetrc` -/

/-- C5, as stated, fails: in a biome that writes the credential file but
refuses to remove it, the registered teardown returns no error and the file
is still there afterwards. -/
theorem netrc_teardown_leaves_file :
    ∃ closeFunc : World → Option GoError × World,
      registeredClose
          (injectNetrc (.caller false) (memBiome "/home/yb" true true false) tokenWorld).1.1
        = some closeFunc
      ∧ (closeFunc
          (injectNetrc (.caller false) (memBiome "/home/yb" true true false) tokenWorld).2).1 = none
      ∧ (closeFunc
          (injectNetrc (.caller false) (memBiome "/home/yb" true true false) tokenWorld).2).2.fileAt
            "/home/yb/.netrc"
        = some (bytesOf "machine github.com login x-access-token password abc123\n") :=
  ⟨netrcCloseFunc (memBiome "/home/yb" true true false), rfl, by decide, by decide⟩

/-- C5, amended: for a non-empty token and a successful write, the teardown
that `injectNetrc` registers runs `rm` on `JoinPath(Home, ".netrc")` under
the background context; it returns no error whether that run succeeds or
fails, also when run a second time; the files it leaves are those the `rm`
run left, so that, `rm` removing its operand whenever it succeeds, the
credential file is gone after every teardown whose `rm` run succeeded; a
failed run only adds a warning to the log. -/
theorem netrc_teardown_best_effort (ctx : Context) (bio : Biome) (w : World)
    (hne : Getenv w gitHubTokenVar ≠ "")
    (hwrite : (bio.WriteFile ctx (netrcPathOf bio) (generateNetrc (Getenv w gitHubTokenVar))
        (Logf .Info "Writing .netrc" [] w)).1 = none)
    (hrm : ∀ w0 : World,
        (bio.Run .Background (commandInvocation ["rm", netrcPathOf bio]) w0).err = none →
        (bio.Run .Background (commandInvocation ["rm", netrcPathOf bio]) w0).world.fileAt
          (netrcPathOf bio) = none) :
    registeredClose (injectNetrc ctx bio w).1.1 = some (netrcCloseFunc bio)
      ∧ (∀ w0 : World, (netrcCloseFunc bio w0).1 = none)
      ∧ (∀ w0 : World, (netrcCloseFunc bio (netrcCloseFunc bio w0).2).1 = none)
      ∧ (∀ w0 : World, (netrcCloseFunc bio w0).2.fileAt
          = (bio.Run .Background (commandInvocation ["rm", netrcPathOf bio]) w0).world.fileAt)
      ∧ (∀ w0 : World,
          (bio.Run .Background (commandInvocation ["rm", netrcPathOf bio]) w0).err = none →
          (netrcCloseFunc bio w0).2.fileAt (netrcPathOf bio) = none)
      ∧ (∀ w0 : World,
          (bio.Run .Background (commandInvocation ["rm", netrcPathOf bio]) w0).err ≠ none →
          ∃ line : String, (netrcCloseFunc bio w0).2
            = { (bio.Run .Background (commandInvocation ["rm", netrcPathOf bio]) w0).world with
                logged := (bio.Run .Background (commandInvocation ["rm", netrcPathOf bio])
                  w0).world.logged ++ [(LogLevel.Warn, line)] }) := by
  have hnoerr : ∀ w0 : World, (netrcCloseFunc bio w0).1 = none := by
    intro w0
    unfold netrcCloseFunc
    simp only []
    split <;> rfl
  have hworld : ∀ w0 : World,
      (runCommand .Background bio ["rm", bio.JoinPath [bio.Home, netrcFilename]] w0).2
        = (bio.Run .Background (commandInvocation ["rm", netrcPathOf bio]) w0).world :=
    fun w0 => runCommand_world .Background bio _ w0
  have hfiles : ∀ w0 : World, (netrcCloseFunc bio w0).2.fileAt
      = (bio.Run .Background (commandInvocation ["rm", netrcPathOf bio]) w0).world.fileAt := by
    intro w0
    unfold netrcCloseFunc
    simp only []
    split
    · rw [fileAt_Logf, hworld]
    · rw [hworld]
  refine ⟨?_, hnoerr, fun w0 => hnoerr _, hfiles, ?_, ?_⟩
  · rw [(injectNetrc_write_ok ctx bio w hne hwrite).1]
    rfl
  · intro w0 hok
    rw [hfiles]
    exact hrm w0 hok
  · intro w0 hfail
    have hiff := runCommand_none_iff .Background bio
      ["rm", bio.JoinPath [bio.Home, netrcFilename]] w0
    have herr : (runCommand .Background bio ["rm", bio.JoinPath [bio.Home, netrcFilename]] w0).1
        ≠ none := fun h => hfail (hiff.mp h)
    unfold netrcCloseFunc
    simp only []
    split
    · rename_i err _
      refine ⟨Sprintf "Could not clean up .netrc: %v" [.err err], ?_⟩
      simp only [Logf, hworld]
    · rename_i hnone
      exact absurd hnone herr

/-- C5 amended, on a run: in the in-memory biome that allows `rm`, the
teardown after an injection returns no error and removes the file, and a
second teardown, whose `rm` fails on the missing file, returns no error
either. -/
theorem netrc_teardown_best_effort_witness :
    (netrcCloseFunc (memBiome "/home/yb" true true true)
        (injectNetrc (.caller false) (memBiome "/home/yb" true true true) tokenWorld).2).2.fileAt
          "/home/yb/.netrc" = none
    ∧ (netrcCloseFunc (memBiome "/home/yb" true true true)
        (netrcCloseFunc (memBiome "/home/yb" true true true)
          (injectNetrc (.caller false) (memBiome "/home/yb" true true true) tokenWorld).2).2).1
        = none := by
  have h := netrc_teardown_best_effort (.caller false) (memBiome "/home/yb" true true true)
    tokenWorld (by decide) (by decide)
    (by
      intro w0
      have hp : netrcPathOf (memBiome "/home/yb" true true true) = "/home/yb/.netrc" := by decide
      rw [hp]
      simp only [memBiome, commandInvocation]
      cases hf : w0.fileAt "/home/yb/.netrc" with
      | none => simp [failedRun]
      | some data =>
        intro _
        simp only [↓reduceIte, World.fileAt, List.lookup_eq_none_iff]
        intro b hb
        have hb2 := (List.mem_filter.mp hb).2
        simp only [bne_iff_ne, ne_eq] at hb2 ⊢
        exact fun h => hb2 h.symm)
  exact ⟨h.2.2.2.2.1 _ (by decide), h.2.2.1 _⟩

/-! ## `newBiome` -/

/-- C2: with the container client and the container definition cleared, as
`disableDocker` returns them, `newBiome` does not return once the home
directory is resolved: reading `opts.targetContainer.Image` through the `nil`
pointer panics, before any biome is built. -/
theorem newBiome_disableDocker_panics (ext : Externals) (ctx : Context) (opts : newBiomeOptions)
    (w w1 : World) (homeDir : String)
    (hhome : opts.dataDirs.BuildHome opts.packageDir opts.target ext.LocalDescribe w
      = (.ok homeDir, w1)) :
    newBiome ext ctx opts.disableDocker w
      = (.panicked nilDereference, Logf .Debug "Home located at %s" [.str homeDir] w1) := by
  unfold newBiome
  simp only [newBiomeOptions.disableDocker, hhome]

/-- C2, on a run: the options of target `web` after `disableDocker`, token
`abc123` in the environment. -/
theorem newBiome_disableDocker_panics_witness :
    newBiome sampleExternals (.caller false) webOptions.disableDocker tokenWorld
      = (.panicked nilDereference,
          Logf .Debug "Home located at %s" [.str "/data/web/local"] tokenWorld) :=
  newBiome_disableDocker_panics sampleExternals (.caller false) webOptions tokenWorld tokenWorld
    "/data/web/local" rfl

/-- In local mode with a container definition present `newBiome` returns:
either a biome that is an `EnvBiome` with the base environment, or no biome
and an error naming the target. -/
theorem newBiome_local_with_definition (ext : Externals) (ctx : Context) (opts : newBiomeOptions)
    (w : World) (definition : ContainerDefinition)
    (hclient : opts.dockerClient = none) (hdef : opts.targetContainer = some definition) :
    (∃ inner, (newBiome ext ctx opts w).1 = .returned (some (.EnvBiome inner opts.baseEnv), none))
      ∨ ∃ cause, (newBiome ext ctx opts w).1
          = .returned (none, some (.wrapError
              ("set up environment for target " ++ opts.target ++ ": " ++ cause.Error) cause)) := by
  unfold newBiome
  simp only [hclient, hdef]
  rcases opts.dataDirs.BuildHome opts.packageDir opts.target ext.LocalDescribe w with ⟨home, w1⟩
  cases home with
  | error err => exact Or.inr ⟨err, by simp only [setUpError_eq]⟩
  | ok homeDir =>
    simp only []
    rcases ext.newContainerBiome ctx opts.dataDirs opts.packageDir homeDir definition.Image
      (Logf .Debug "Home located at %s" [.str homeDir] w1) with ⟨built, w3⟩
    cases built with
    | error err => exact Or.inr ⟨err, by simp only [setUpError_eq]⟩
    | ok cb =>
      simp only []
      rcases injectNetrc ctx cb w3 with ⟨⟨bio, err⟩, w4⟩
      cases err with
      | none => exact Or.inl ⟨bio, rfl⟩
      | some e => exact Or.inr ⟨e, by simp only [setUpError_eq]⟩

/-! ## `targetToPhaseDeps` -/

theorem parseBuildpacks_ok {Spec : Type} (P : String → Except GoError Spec) (name : String) :
    ∀ (deps : List String) (specs buildpacks : List Spec),
      deps.map P = specs.map Except.ok →
      parseBuildpacks P name deps buildpacks = .ok (buildpacks ++ specs)
  | [], specs, buildpacks, h => by
    cases specs with
    | nil => simp [parseBuildpacks]
    | cons x xs => simp at h
  | dep :: rest, specs, buildpacks, h => by
    cases specs with
    | nil => simp at h
    | cons x xs =>
      simp only [List.map_cons, List.cons.injEq] at h
      simp only [parseBuildpacks, h.1]
      rw [parseBuildpacks_ok P name rest xs (buildpacks ++ [x]) h.2]
      simp

theorem parseBuildpacks_error {Spec : Type} (P : String → Except GoError Spec) (name : String) :
    ∀ (deps : List String) (buildpacks : List Spec),
      (∃ dep ∈ deps, ∃ e, P dep = .error e) →
      ∃ cause, (∃ dep ∈ deps, P dep = .error cause)
        ∧ parseBuildpacks P name deps buildpacks
          = .error (.wrapError ("target " ++ name ++ ": " ++ cause.Error) cause)
  | [], _, h => by
    obtain ⟨dep, hmem, _⟩ := h
    simp at hmem
  | dep :: rest, buildpacks, h => by
    cases hP : P dep with
    | error cause =>
      refine ⟨cause, ⟨dep, by simp, hP⟩, ?_⟩
      simp only [parseBuildpacks, hP, Errorf_target]
    | ok spec =>
      have hrest : ∃ d ∈ rest, ∃ e, P d = .error e := by
        obtain ⟨d, hmem, e, he⟩ := h
        rcases List.mem_cons.mp hmem with hd | hd
        · subst hd
          rw [hP] at he
          cases he
        · exact ⟨d, hd, e, he⟩
      obtain ⟨cause, ⟨d, hd, hcause⟩, hres⟩ :=
        parseBuildpacks_error P name rest (buildpacks ++ [spec]) hrest
      refine ⟨cause, ⟨d, List.mem_cons_of_mem _ hd, hcause⟩, ?_⟩
      simp only [parseBuildpacks, hP, hres]

/-- C7: if some declared build dependency fails to parse, `targetToPhaseDeps`
returns no descriptor and an error whose message is `target <name>: `
followed by the message of a parse error, which it wraps; if all parse and the
environment fails to resolve, the same with the resolution error; if all
parse, to `specs` in declaration order, and the environment resolves, it
returns no error and the descriptor with the target's name, buildpack list
`specs`, the translated resources and the resolved template. -/
theorem targetToPhaseDeps_names_target {CD NCD EnvDecl Spec Template : Type}
    (ToNarwhal : CD → NCD) (P : String → Except GoError Spec)
    (MapVars : EnvDecl → Except GoError Template) (target : BuildTarget CD EnvDecl) :
    ((∃ dep ∈ target.Build, ∃ e, P dep = .error e) →
        ∃ cause, (∃ dep ∈ target.Build, P dep = .error cause)
          ∧ targetToPhaseDeps ToNarwhal P MapVars target
            = (none, some (.wrapError ("target " ++ target.Name ++ ": " ++ cause.Error) cause))
          ∧ (GoError.wrapError ("target " ++ target.Name ++ ": " ++ cause.Error) cause).Unwrap
            = some cause)
      ∧ (∀ (specs : List Spec) (cause : GoError),
          target.Build.map P = specs.map Except.ok →
          MapVars target.Environment = .error cause →
          targetToPhaseDeps ToNarwhal P MapVars target
            = (none, some (.wrapError ("target " ++ target.Name ++ ": " ++ cause.Error) cause)))
      ∧ (∀ (specs : List Spec) (template : Template),
          target.Build.map P = specs.map Except.ok →
          MapVars target.Environment = .ok template →
          targetToPhaseDeps ToNarwhal P MapVars target
            = (some { TargetName := target.Name, Buildpacks := specs,
                      Resources := narwhalContainerMap ToNarwhal target.Containers,
                      EnvironmentTemplate := some template }, none)) := by
  refine ⟨?_, ?_, ?_⟩
  · intro h
    obtain ⟨cause, hcause, hres⟩ := parseBuildpacks_error P target.Name target.Build [] h
    refine ⟨cause, hcause, ?_, rfl⟩
    simp only [targetToPhaseDeps, hres]
  · intro specs cause hspecs henv
    have hres := parseBuildpacks_ok P target.Name target.Build specs [] hspecs
    simp only [targetToPhaseDeps, hres, henv, Errorf_target]
  · intro specs template hspecs henv
    have hres := parseBuildpacks_ok P target.Name target.Build specs [] hspecs
    simp only [targetToPhaseDeps, hres, henv, List.nil_append]

/-- C7, on a run: the target `web` with the unparsable dependency `oops`
fails with an error that names the target and wraps the parse error. -/
theorem targetToPhaseDeps_names_target_witness :
    (∃ cause : GoError,
      targetToPhaseDeps (fun image : String => image) sampleParse sampleMapVars (sampleTarget "oops")
        = (none, some (.wrapError ("target " ++ "web" ++ ": " ++ cause.Error) cause)))
    ∧ targetToPhaseDeps (fun image : String => image) sampleParse sampleMapVars
        (sampleTarget "python:3.9")
      = (some { TargetName := "web", Buildpacks := [("go", "1.14"), ("python", "3.9")],
                Resources := none,
                EnvironmentTemplate := some [("GOFLAGS", "-mod=vendor")] }, none) := by
  constructor
  · obtain ⟨cause, _, h, _⟩ :=
      (targetToPhaseDeps_names_target (fun image : String => image) sampleParse sampleMapVars
        (sampleTarget "oops")).1 ⟨"oops", by decide, _, rfl⟩
    exact ⟨cause, h⟩
  · exact (targetToPhaseDeps_names_target (fun image : String => image) sampleParse sampleMapVars
      (sampleTarget "python:3.9")).2.2 [("go", "1.14"), ("python", "3.9")]
      [("GOFLAGS", "-mod=vendor")] rfl rfl

/-! ## `narwhalContainerMap` -/

theorem foldl_insert_lookup {CD NCD : Type} (T : CD → NCD) (k : String) :
    ∀ (l : List (Sigma (fun _ : String => CD))) (acc : AList (fun _ : String => NCD)),
      l.NodupKeys →
      (l.foldl (fun nmap kv => nmap.insert kv.1 (T kv.2)) acc).lookup k
        = match l.dlookup k with
          | some v => some (T v)
          | none => acc.lookup k
  | [], acc, _ => by simp [List.dlookup]
  | ⟨k1, v1⟩ :: rest, acc, hnd => by
    have hcons := List.nodupKeys_cons.mp hnd
    rw [List.foldl_cons, foldl_insert_lookup T k rest _ hcons.2]
    by_cases hk : k = k1
    · subst hk
      have hnone : List.dlookup k rest = none := List.dlookup_eq_none.mpr hcons.1
      rw [hnone, List.dlookup_cons_eq]
      simp only [AList.lookup_insert]
    · rw [List.dlookup_cons_ne rest ⟨k1, v1⟩ hk]
      cases List.dlookup k rest with
      | some v => rfl
      | none => simp only [AList.lookup_insert_ne hk]

/-- C8: `narwhalContainerMap` maps the `nil` map and every map of length zero
to the `nil` map, and never returns a map that is present but empty; for a
map with entries it returns a map whose value at every key is `ToNarwhal` of
the input value at that key, absent where the input is absent, so that the
two maps have the same keys. -/
theorem narwhalContainerMap_same_keys {CD NCD : Type} (ToNarwhal : CD → NCD) (defs : GoMap CD) :
    narwhalContainerMap ToNarwhal (none : GoMap CD) = none
      ∧ narwhalContainerMap ToNarwhal (some (∅ : AList (fun _ : String => CD))) = none
      ∧ (GoMap.len defs = 0 → narwhalContainerMap ToNarwhal defs = none)
      ∧ (∀ r, narwhalContainerMap ToNarwhal defs = some r → r.entries ≠ [])
      ∧ (∀ m : AList (fun _ : String => CD), defs = some m → m.entries ≠ [] →
          ∃ r, narwhalContainerMap ToNarwhal defs = some r
            ∧ (∀ k, r.lookup k = (m.lookup k).map ToNarwhal)
            ∧ (∀ k, k ∈ r ↔ k ∈ m)
            ∧ r.keys.length = m.keys.length) := by
  have hmain : ∀ m : AList (fun _ : String => CD), m.entries ≠ [] →
      ∃ r, narwhalContainerMap ToNarwhal (some m) = some r
        ∧ (∀ k, r.lookup k = (m.lookup k).map ToNarwhal)
        ∧ (∀ k, k ∈ r ↔ k ∈ m) := by
    intro m hm
    have hlen : GoMap.len (some m) ≠ 0 := by
      simpa [GoMap.len] using hm
    have hlookup : ∀ k, (m.entries.foldl (fun nmap kv => nmap.insert kv.1 (ToNarwhal kv.2))
        (∅ : AList (fun _ : String => NCD))).lookup k = (m.lookup k).map ToNarwhal := by
      intro k
      rw [foldl_insert_lookup ToNarwhal k m.entries ∅ m.nodupKeys]
      show _ = (List.dlookup k m.entries).map ToNarwhal
      cases List.dlookup k m.entries <;> simp
    refine ⟨_, by simp only [narwhalContainerMap, if_neg hlen, GoMap.range], hlookup, ?_⟩
    intro k
    rw [← AList.lookup_isSome, ← AList.lookup_isSome, hlookup]
    cases m.lookup k <;> simp
  refine ⟨rfl, rfl, ?_, ?_, ?_⟩
  · intro h
    simp only [narwhalContainerMap, if_pos h]
  · intro r hr hnil
    cases defs with
    | none => simp [narwhalContainerMap, GoMap.len] at hr
    | some m =>
      by_cases hm : m.entries = []
      · simp [narwhalContainerMap, GoMap.len, hm] at hr
      · obtain ⟨r2, hr2, _, hkeys⟩ := hmain m hm
        rw [hr] at hr2
        cases hr2
        cases hme : m.entries with
        | nil => exact hm hme
        | cons kv rest =>
          have hin : kv.1 ∈ m := by
            rw [AList.mem_keys]
            simp [AList.keys, List.keys, hme]
          have hinr : kv.1 ∈ r := (hkeys kv.1).mpr hin
          rw [AList.mem_keys] at hinr
          simp [AList.keys, List.keys, hnil] at hinr
  · intro m hdefs hm
    subst hdefs
    obtain ⟨r, hr, hlookup, hkeys⟩ := hmain m hm
    refine ⟨r, hr, hlookup, hkeys, ?_⟩
    have hperm : r.keys.Perm m.keys := by
      rw [List.perm_ext_iff_of_nodup r.keys_nodup m.keys_nodup]
      intro k
      rw [← AList.mem_keys, ← AList.mem_keys]
      exact hkeys k
    exact hperm.length_eq

/-- C8, on a run: the resources `db` and `cache` are translated key by key. -/
theorem narwhalContainerMap_same_keys_witness :
    ∃ r, narwhalContainerMap (fun image : String => "docker.io/" ++ image) (some sampleResources)
        = some r
      ∧ r.lookup "db" = some "docker.io/postgres:12"
      ∧ r.lookup "cache" = some "docker.io/redis:6"
      ∧ r.lookup "web" = none
      ∧ r.keys.length = 2 := by
  obtain ⟨r, hr, hlookup, _, hlen⟩ :=
    (narwhalContainerMap_same_keys (fun image : String => "docker.io/" ++ image)
      (some sampleResources)).2.2.2.2 sampleResources rfl (by decide)
  refine ⟨r, hr, ?_, ?_, ?_, ?_⟩
  · rw [hlookup]
    decide
  · rw [hlookup]
    decide
  · rw [hlookup]
    decide
  · rw [hlen]
    decide

/-! ## `newDockerNetwork` -/

/-- C9: without a client `newDockerNetwork` returns the empty identifier, no
error and a teardown that leaves every world as it is, whatever the context
and the random source; the world is the one it was called in: no network is
created or removed, no name is generated, nothing is logged. -/
theorem newDockerNetwork_no_client (randRead : Nat → World → Except GoError Bytes × World)
    (ctx : Context) (w : World) :
    ∃ teardown : World → World,
      newDockerNetwork randRead ctx none w = (("", some teardown, none), w)
        ∧ ∀ w0 : World, teardown w0 = w0 :=
  ⟨fun w0 => w0, rfl, fun _ => rfl⟩

end Yb
